import Mathlib

/-!
Verification development for the control/timing core of the Carla audio engine
(`source/backend/engine/CarlaEngineInternal.cpp`): the plugin-table mutation
helpers, the deferred-action slot, the transport clock and the DSP-load
estimator, shallowly embedded as pure Lean functions over explicit state.

Modelling conventions:
* `CarlaPlugin*` pointers are `Nat` references; the id stored inside each
  plugin object (written by `CarlaPlugin::setId`) lives in a heap map
  `pid : Nat → Nat`, so pointer aliasing behaves as in the source.
* C doubles are embedded as `ℚ` (exact arithmetic); the Hylia/Link peer is
  absent, matching a build without `HAVE_HYLIA`.
* `uint32`/`uint64` counters are `Nat`; int32 bar/beat are `ℤ` (the source
  never exercises their wraparound in the modelled paths).
-/

set_option maxHeartbeats 1000000

namespace Carla

/-- Zeroed peak meters, the effect of `carla_zeroFloats(plugins[i].peaks, 4)`. -/
def zeroPeaks : List ℚ := [0, 0, 0, 0]

/-- The engine plugin table owned by `CarlaEngine::ProtectedData`: the
`plugins` array (each `EnginePluginData` = plugin pointer + 4 peak floats),
`curPluginCount` and `maxPluginNumber`.  `slot i` is `plugins[i].plugin`
(`none` = null pointer), `peaks i` is `plugins[i].peaks`, and `pid p` is the
id stored inside the plugin object referenced by `p`. -/
@[ext]
structure PluginTable where
  maxPluginNumber : Nat
  curPluginCount : Nat
  slot : Nat → Option Nat
  peaks : Nat → List ℚ
  pid : Nat → Nat

/-- The shift-down loop of `doPluginRemove`: for `i` from `pluginId` while
`i < curPluginCount` (the already-decremented count `n`), read
`plugins[i+1].plugin`; a null pointer breaks the loop
(`CARLA_SAFE_ASSERT_BREAK`), otherwise `plugin->setId(i)`, store it at slot
`i` and zero that slot's peaks. -/
def removeLoop (n : Nat) (i : Nat) (s : PluginTable) : PluginTable :=
  if i < n then
    match s.slot (i + 1) with
    | none => s
    | some p =>
        removeLoop n (i + 1)
          { s with slot := Function.update s.slot i (some p),
                   peaks := Function.update s.peaks i zeroPeaks,
                   pid := Function.update s.pid p i }
  else s
termination_by n - i

/-- `CarlaEngine::ProtectedData::doPluginRemove`: guarded by
`curPluginCount > 0` and `pluginId < curPluginCount` (violation returns with
no change), decrements the count, shifts all later plugins one slot down,
then nulls the last previously-occupied slot and zeroes its peaks. -/
def doPluginRemove (s : PluginTable) (pluginId : Nat) : PluginTable :=
  if 0 < s.curPluginCount ∧ pluginId < s.curPluginCount then
    let s1 := { s with curPluginCount := s.curPluginCount - 1 }
    let s2 := removeLoop s1.curPluginCount pluginId s1
    { s2 with slot := Function.update s2.slot s1.curPluginCount none,
              peaks := Function.update s2.peaks s1.curPluginCount zeroPeaks }
  else s

/-- `CarlaEngine::ProtectedData::doPluginsSwitch`: guarded by
`curPluginCount >= 2`, both indices in range and both slots non-null
(violation returns with no change); then `pluginA->setId(idB)`,
`plugins[idA].plugin = pluginB`, `pluginB->setId(idA)`,
`plugins[idB].plugin = pluginA`, in that order. -/
def doPluginsSwitch (s : PluginTable) (idA idB : Nat) : PluginTable :=
  if 2 ≤ s.curPluginCount ∧ idA < s.curPluginCount ∧ idB < s.curPluginCount then
    match s.slot idA, s.slot idB with
    | some pluginA, some pluginB =>
        { s with
          pid := Function.update (Function.update s.pid pluginA idB) pluginB idA,
          slot := Function.update (Function.update s.slot idA (some pluginB)) idB (some pluginA) }
    | some _, none => s
    | none, _ => s
  else s

/-- Table consistency invariant maintained by the engine: every occupied slot
holds a non-null plugin, each plugin's stored id equals its slot index, and no
plugin object sits in two occupied slots. -/
def WellFormed (s : PluginTable) : Prop :=
  (∀ j, j < s.curPluginCount → (s.slot j).isSome = true) ∧
  (∀ j, j < s.curPluginCount → s.pid ((s.slot j).getD 0) = j) ∧
  (∀ j, j < s.curPluginCount → ∀ k, k < s.curPluginCount → s.slot j = s.slot k → j = k)

instance (s : PluginTable) : Decidable (WellFormed s) := by
  unfold WellFormed; infer_instance

/-- A concrete well-formed 3-plugin table used to instantiate hypotheses:
slot `j` holds plugin reference `100 + j`. -/
def egTable : PluginTable where
  maxPluginNumber := 16
  curPluginCount := 3
  slot := fun j => if j < 3 then some (j + 100) else none
  peaks := fun _ => zeroPeaks
  pid := fun p => p - 100

/-- Loop exit: once `i < n` fails, `removeLoop` returns the table unchanged. -/
theorem removeLoop_done (n i : Nat) (s : PluginTable) (hin : ¬ i < n) :
    removeLoop n i s = s := by
  rw [removeLoop, if_neg hin]

/-- One iteration of `removeLoop` when the scanned slot is occupied. -/
theorem removeLoop_occupied (n i : Nat) (s : PluginTable) (p : Nat)
    (hin : i < n) (hp : s.slot (i + 1) = some p) :
    removeLoop n i s = removeLoop n (i + 1)
      { s with slot := Function.update s.slot i (some p),
               peaks := Function.update s.peaks i zeroPeaks,
               pid := Function.update s.pid p i } := by
  rw [removeLoop, if_pos hin, hp]

/-- Invariant of the shift-down loop: when every slot it will scan is
occupied, the loop shifts slots `i+1 .. n` down to `i .. n-1`, zeroes the
peaks it writes, leaves everything outside `[i, n)` alone, and rewrites the
stored id of each moved plugin to its final destination slot. -/
theorem removeLoop_spec (n : Nat) (k : Nat) :
    ∀ (i : Nat) (s : PluginTable), n ≤ i + k →
    (∀ j, i ≤ j → j < n → (s.slot (j + 1)).isSome = true) →
    (removeLoop n i s).maxPluginNumber = s.maxPluginNumber ∧
    (removeLoop n i s).curPluginCount = s.curPluginCount ∧
    (∀ j, j < i ∨ n ≤ j →
      (removeLoop n i s).slot j = s.slot j ∧ (removeLoop n i s).peaks j = s.peaks j) ∧
    (∀ j, i ≤ j → j < n →
      (removeLoop n i s).slot j = s.slot (j + 1) ∧ (removeLoop n i s).peaks j = zeroPeaks) ∧
    (∀ q, (∀ j, i ≤ j → j < n → s.slot (j + 1) ≠ some q) →
      (removeLoop n i s).pid q = s.pid q) ∧
    (∀ j q, i ≤ j → j < n → s.slot (j + 1) = some q →
      (∀ m, j < m → m < n → s.slot (m + 1) ≠ some q) → (removeLoop n i s).pid q = j) := by
  induction k with
  | zero =>
      intro i s hk _
      have hin : ¬ i < n := by omega
      rw [removeLoop_done n i s hin]
      refine ⟨rfl, rfl, fun j _ => ⟨rfl, rfl⟩, ?_, fun q _ => rfl, ?_⟩
      · intro j hj1 hj2; omega
      · intro j q hj1 hj2 _ _; omega
  | succ k ih =>
      intro i s hk hocc
      by_cases hin : i < n
      · have hso := hocc i le_rfl hin
        rcases hp : s.slot (i + 1) with _ | p
        · rw [hp] at hso; simp at hso
        · rw [removeLoop_occupied n i s p hin hp]
          have hslot' : ∀ m, m ≠ i →
              (Function.update s.slot i (some p)) m = s.slot m := by
            intro m hm; simp [Function.update_apply, hm]
          have hocc' : ∀ j, i + 1 ≤ j → j < n →
              ((Function.update s.slot i (some p)) (j + 1)).isSome = true := by
            intro j hj1 hj2
            rw [hslot' (j + 1) (by omega)]
            exact hocc j (by omega) hj2
          obtain ⟨ihmax, ihcnt, ihout, ihshift, ihmiss, ihhit⟩ :=
            ih (i + 1)
              { s with slot := Function.update s.slot i (some p),
                       peaks := Function.update s.peaks i zeroPeaks,
                       pid := Function.update s.pid p i }
              (by omega) hocc'
          dsimp only at ihmax ihcnt ihout ihshift ihmiss ihhit
          refine ⟨ihmax, ihcnt, ?_, ?_, ?_, ?_⟩
          · intro j hj
            have hji : j ≠ i := by omega
            obtain ⟨e1, e2⟩ := ihout j (by omega)
            exact ⟨by rw [e1]; simp [Function.update_apply, hji],
                   by rw [e2]; simp [Function.update_apply, hji]⟩
          · intro j hj1 hj2
            by_cases hji : j = i
            · subst hji
              obtain ⟨e1, e2⟩ := ihout j (Or.inl (by omega))
              refine ⟨by rw [e1, hp]; simp, by rw [e2]; simp⟩
            · obtain ⟨e1, e2⟩ := ihshift j (by omega) hj2
              exact ⟨by rw [e1, hslot' (j + 1) (by omega)], e2⟩
          · intro q hq
            have hpq : p ≠ q := by
              intro h; exact hq i le_rfl hin (by rw [hp, h])
            have e := ihmiss q (by
              intro j hj1 hj2
              rw [hslot' (j + 1) (by omega)]
              exact hq j (by omega) hj2)
            rw [e]; simp [Function.update_apply, Ne.symm hpq]
          · intro j q hj1 hj2 hjq hlater
            by_cases hji : j = i
            · subst hji
              have hqp : q = p := by
                rw [hp] at hjq; exact (Option.some_inj.mp hjq).symm
              subst hqp
              have e := ihmiss q (by
                intro m hm1 hm2
                rw [hslot' (m + 1) (by omega)]
                exact hlater m (by omega) hm2)
              rw [e]; simp [Function.update_apply]
            · have e := ihhit j q (by omega) hj2
                (by rw [hslot' (j + 1) (by omega)]; exact hjq)
                (by
                  intro m hm1 hm2
                  rw [hslot' (m + 1) (by omega)]
                  exact hlater m hm1 hm2)
              exact e
      · rw [removeLoop_done n i s hin]
        refine ⟨rfl, rfl, fun j _ => ⟨rfl, rfl⟩, ?_, fun q _ => rfl, ?_⟩
        · intro j hj1 hj2; omega
        · intro j q hj1 hj2 _ _; omega

/-- C1: removing index `i` from a well-formed table of `n` occupied slots
leaves `n-1` occupied slots (count decremented, slots `0..n-2` still
non-null), clears slot `n-1` (null plugin, zeroed peaks), moves each plugin
previously at `j+1` (for `i ≤ j < n-1`) down to slot `j` with its stored id
rewritten to `j` — one less than before — and leaves the slots below `i`
(plugin reference, peaks, and that plugin's stored id) unchanged. -/
theorem doPluginRemove_spec (s : PluginTable) (i : Nat)
    (hwf : WellFormed s) (hi : i < s.curPluginCount) :
    (doPluginRemove s i).curPluginCount = s.curPluginCount - 1 ∧
    (doPluginRemove s i).slot (s.curPluginCount - 1) = none ∧
    (doPluginRemove s i).peaks (s.curPluginCount - 1) = zeroPeaks ∧
    (∀ j, j < s.curPluginCount - 1 → ((doPluginRemove s i).slot j).isSome = true) ∧
    (∀ j, i ≤ j → j < s.curPluginCount - 1 →
      (doPluginRemove s i).slot j = s.slot (j + 1) ∧
      (doPluginRemove s i).pid ((s.slot (j + 1)).getD 0) = j ∧
      (doPluginRemove s i).pid ((s.slot (j + 1)).getD 0) + 1 = s.pid ((s.slot (j + 1)).getD 0)) ∧
    (∀ j, j < i →
      (doPluginRemove s i).slot j = s.slot j ∧
      (doPluginRemove s i).peaks j = s.peaks j ∧
      (doPluginRemove s i).pid ((s.slot j).getD 0) = s.pid ((s.slot j).getD 0)) := by
  obtain ⟨hocc0, hpid0, hinj⟩ := hwf
  have hg : 0 < s.curPluginCount ∧ i < s.curPluginCount := ⟨by omega, hi⟩
  have hocc1 : ∀ j, i ≤ j → j < s.curPluginCount - 1 →
      ((({ s with curPluginCount := s.curPluginCount - 1 } : PluginTable)).slot
        (j + 1)).isSome = true := by
    intro j hj1 hj2
    exact hocc0 (j + 1) (by omega)
  obtain ⟨lmax, lcnt, lout, lshift, lmiss, lhit⟩ :=
    removeLoop_spec (s.curPluginCount - 1) (s.curPluginCount - 1) i
      { s with curPluginCount := s.curPluginCount - 1 } (by omega) hocc1
  dsimp only at lmax lcnt lout lshift lmiss lhit
  have hunfold : doPluginRemove s i =
      { removeLoop (s.curPluginCount - 1) i
          { s with curPluginCount := s.curPluginCount - 1 } with
        slot := Function.update (removeLoop (s.curPluginCount - 1) i
          { s with curPluginCount := s.curPluginCount - 1 }).slot
          (s.curPluginCount - 1) none,
        peaks := Function.update (removeLoop (s.curPluginCount - 1) i
          { s with curPluginCount := s.curPluginCount - 1 }).peaks
          (s.curPluginCount - 1) zeroPeaks } := by
    unfold doPluginRemove
    rw [if_pos hg]
  rw [hunfold]
  dsimp only
  refine ⟨lcnt, ?_, ?_, ?_, ?_, ?_⟩
  · simp [Function.update_apply]
  · simp [Function.update_apply]
  · intro j hj
    rw [Function.update_apply, if_neg (by omega : ¬ j = s.curPluginCount - 1)]
    by_cases hij : i ≤ j
    · rw [(lshift j hij (by omega)).1]
      exact hocc0 (j + 1) (by omega)
    · rw [(lout j (Or.inl (by omega))).1]
      exact hocc0 j (by omega)
  · intro j hj1 hj2
    have hq := hocc0 (j + 1) (by omega)
    rcases hqe : s.slot (j + 1) with _ | q
    · rw [hqe] at hq; simp at hq
    · have hlater : ∀ m, j < m → m < s.curPluginCount - 1 →
          s.slot (m + 1) ≠ some q := by
        intro m hm1 hm2 hcon
        have := hinj (m + 1) (by omega) (j + 1) (by omega) (by rw [hcon, hqe])
        omega
      have hpidq := lhit j q hj1 hj2 hqe hlater
      have hpid0q := hpid0 (j + 1) (by omega)
      rw [hqe] at hpid0q
      simp only [Option.getD_some] at hpid0q
      simp only [Option.getD_some]
      refine ⟨?_, hpidq, ?_⟩
      · rw [Function.update_apply, if_neg (by omega : ¬ j = s.curPluginCount - 1),
            (lshift j hj1 (by omega)).1]
        exact hqe
      · omega
  · intro j hj
    have hq := hocc0 j (by omega)
    rcases hqe : s.slot j with _ | q
    · rw [hqe] at hq; simp at hq
    · have hmiss : ∀ m, i ≤ m → m < s.curPluginCount - 1 →
          s.slot (m + 1) ≠ some q := by
        intro m hm1 hm2 hcon
        have := hinj (m + 1) (by omega) j (by omega) (by rw [hcon, hqe])
        omega
      have hpidq := lmiss q hmiss
      simp only [Option.getD_some]
      refine ⟨?_, ?_, hpidq⟩
      · rw [Function.update_apply, if_neg (by omega : ¬ j = s.curPluginCount - 1),
            (lout j (Or.inl hj)).1]
        exact hqe
      · rw [Function.update_apply, if_neg (by omega : ¬ j = s.curPluginCount - 1),
            (lout j (Or.inl hj)).2]

/-- C1 witness: removing index 1 from the concrete well-formed 3-plugin
example table behaves exactly as specified. -/
theorem doPluginRemove_spec_witness :
    WellFormed egTable ∧ 1 < egTable.curPluginCount ∧
    ((doPluginRemove egTable 1).curPluginCount = egTable.curPluginCount - 1 ∧
     (doPluginRemove egTable 1).slot (egTable.curPluginCount - 1) = none ∧
     (doPluginRemove egTable 1).peaks (egTable.curPluginCount - 1) = zeroPeaks ∧
     (∀ j, j < egTable.curPluginCount - 1 →
       ((doPluginRemove egTable 1).slot j).isSome = true) ∧
     (∀ j, 1 ≤ j → j < egTable.curPluginCount - 1 →
       (doPluginRemove egTable 1).slot j = egTable.slot (j + 1) ∧
       (doPluginRemove egTable 1).pid ((egTable.slot (j + 1)).getD 0) = j ∧
       (doPluginRemove egTable 1).pid ((egTable.slot (j + 1)).getD 0) + 1 =
         egTable.pid ((egTable.slot (j + 1)).getD 0)) ∧
     (∀ j, j < 1 →
       (doPluginRemove egTable 1).slot j = egTable.slot j ∧
       (doPluginRemove egTable 1).peaks j = egTable.peaks j ∧
       (doPluginRemove egTable 1).pid ((egTable.slot j).getD 0) =
         egTable.pid ((egTable.slot j).getD 0))) :=
  ⟨by decide, by decide, doPluginRemove_spec egTable 1 (by decide) (by decide)⟩

/-- Unfolding of a successful `doPluginsSwitch`: both guards pass and both
slots are non-null, so the table is updated by the four pointer writes of the
source, composed in program order. -/
theorem doPluginsSwitch_eq (s : PluginTable) (a b pa pb : Nat)
    (hcnt : 2 ≤ s.curPluginCount) (ha : a < s.curPluginCount) (hb : b < s.curPluginCount)
    (hsa : s.slot a = some pa) (hsb : s.slot b = some pb) :
    doPluginsSwitch s a b =
      { s with
        pid := Function.update (Function.update s.pid pa b) pb a,
        slot := Function.update (Function.update s.slot a (some pb)) b (some pa) } := by
  unfold doPluginsSwitch
  rw [if_pos ⟨hcnt, ha, hb⟩, hsa, hsb]

/-- C9: calling `doPluginRemove` with an index that is not below the occupied
count (including on an empty table), or `doPluginsSwitch` with fewer than 2
occupied slots, an out-of-range index, or a null plugin at a checked slot, is
a no-op: the returned table is exactly the input table. -/
theorem tableMutation_precondition_noop (s : PluginTable) (i a b : Nat) :
    (s.curPluginCount ≤ i → doPluginRemove s i = s) ∧
    ((s.curPluginCount < 2 ∨ s.curPluginCount ≤ a ∨ s.curPluginCount ≤ b ∨
      s.slot a = none ∨ s.slot b = none) → doPluginsSwitch s a b = s) := by
  constructor
  · intro h
    unfold doPluginRemove
    rw [if_neg]
    omega
  · intro h
    unfold doPluginsSwitch
    by_cases hg : 2 ≤ s.curPluginCount ∧ a < s.curPluginCount ∧ b < s.curPluginCount
    · rw [if_pos hg]
      rcases h with h | h | h | h | h
      · omega
      · omega
      · omega
      · rw [h]
      · rw [h]
        rcases s.slot a with _ | p <;> rfl
    · rw [if_neg hg]

/-- C9 witness: a removal at an out-of-range index and a switch with an
out-of-range index both leave the concrete example table untouched. -/
theorem tableMutation_precondition_noop_witness :
    egTable.curPluginCount ≤ 5 ∧ doPluginRemove egTable 5 = egTable ∧
    doPluginsSwitch egTable 0 9 = egTable :=
  ⟨by decide, (tableMutation_precondition_noop egTable 5 0 9).1 (by decide),
   (tableMutation_precondition_noop egTable 5 0 9).2 (Or.inr (Or.inr (Or.inl (by decide))))⟩

/-- C10: `doPluginsSwitch a a` on an occupied slot `a` whose plugin's stored
id is `a` passes every guard (there is no distinctness check) and leaves the
table exactly unchanged. -/
theorem doPluginsSwitch_self (s : PluginTable) (a p : Nat)
    (hcnt : 2 ≤ s.curPluginCount) (ha : a < s.curPluginCount)
    (hslot : s.slot a = some p) (hpid : s.pid p = a) :
    doPluginsSwitch s a a = s := by
  rw [doPluginsSwitch_eq s a a p p hcnt ha ha hslot hslot,
      Function.update_idem, Function.update_idem]
  have e1 : Function.update s.pid p a = s.pid := by
    funext q
    by_cases h : q = p
    · subst h; simp [hpid]
    · simp [Function.update_apply, h]
  have e2 : Function.update s.slot a (some p) = s.slot := by
    funext j
    by_cases h : j = a
    · subst h; simp [hslot]
    · simp [Function.update_apply, h]
  rw [e1, e2]

/-- C10 witness: switching slot 1 with itself on the concrete example table
is accepted and is the identity. -/
theorem doPluginsSwitch_self_witness :
    2 ≤ egTable.curPluginCount ∧ 1 < egTable.curPluginCount ∧
    egTable.slot 1 = some 101 ∧ egTable.pid 101 = 1 ∧
    doPluginsSwitch egTable 1 1 = egTable :=
  ⟨by decide, by decide, by decide, by decide,
   doPluginsSwitch_self egTable 1 101 (by decide) (by decide) (by decide) (by decide)⟩

/-- C6: switching two distinct occupied slots exchanges the two plugin
references, stores each plugin's new slot index as its id, touches no other
slot and not the count, and applying the same switch again restores the
original table exactly (stored ids included). -/
theorem doPluginsSwitch_spec (s : PluginTable) (a b pa pb : Nat)
    (hab : a ≠ b) (ha : a < s.curPluginCount) (hb : b < s.curPluginCount)
    (hsa : s.slot a = some pa) (hsb : s.slot b = some pb) (hpp : pa ≠ pb)
    (hia : s.pid pa = a) (hib : s.pid pb = b) :
    (doPluginsSwitch s a b).slot a = some pb ∧
    (doPluginsSwitch s a b).slot b = some pa ∧
    (doPluginsSwitch s a b).pid pb = a ∧
    (doPluginsSwitch s a b).pid pa = b ∧
    (∀ j, j ≠ a → j ≠ b → (doPluginsSwitch s a b).slot j = s.slot j) ∧
    (doPluginsSwitch s a b).curPluginCount = s.curPluginCount ∧
    doPluginsSwitch (doPluginsSwitch s a b) a b = s := by
  have hcnt : 2 ≤ s.curPluginCount := by omega
  have h1 := doPluginsSwitch_eq s a b pa pb hcnt ha hb hsa hsb
  have hslota : (doPluginsSwitch s a b).slot a = some pb := by
    rw [h1]; simp [Function.update_apply, hab]
  have hslotb : (doPluginsSwitch s a b).slot b = some pa := by
    rw [h1]; simp [Function.update_apply]
  have hcnt' : (doPluginsSwitch s a b).curPluginCount = s.curPluginCount := by rw [h1]
  refine ⟨hslota, hslotb, ?_, ?_, ?_, hcnt', ?_⟩
  · rw [h1]; simp [Function.update_apply]
  · rw [h1]; simp [Function.update_apply, hpp]
  · intro j hja hjb
    rw [h1]; simp [Function.update_apply, hja, hjb]
  · have h2 := doPluginsSwitch_eq (doPluginsSwitch s a b) a b pb pa
      (hcnt'.symm ▸ hcnt) (hcnt'.symm ▸ ha) (hcnt'.symm ▸ hb) hslota hslotb
    rw [h2, h1]
    refine PluginTable.ext rfl rfl ?_ rfl ?_
    · funext j
      by_cases hjb : j = b
      · subst hjb
        simp [Function.update_apply, hsb]
      · by_cases hja : j = a
        · subst hja
          simp [Function.update_apply, hab, hsa]
        · simp [Function.update_apply, hja, hjb]
    · funext q
      by_cases hqa : q = pa
      · subst hqa
        simp [Function.update_apply, hpp, hia]
      · by_cases hqb : q = pb
        · subst hqb
          simp [Function.update_apply, hib, Ne.symm hpp]
        · simp [Function.update_apply, hqa, hqb]

/-- C6 witness: switching slots 0 and 2 of the concrete example table, with
plugin references 100 and 102, behaves as specified and undoes itself. -/
theorem doPluginsSwitch_spec_witness :
    egTable.slot 0 = some 100 ∧ egTable.slot 2 = some 102 ∧
    ((doPluginsSwitch egTable 0 2).slot 0 = some 102 ∧
     (doPluginsSwitch egTable 0 2).slot 2 = some 100 ∧
     (doPluginsSwitch egTable 0 2).pid 102 = 0 ∧
     (doPluginsSwitch egTable 0 2).pid 100 = 2 ∧
     (∀ j, j ≠ 0 → j ≠ 2 → (doPluginsSwitch egTable 0 2).slot j = egTable.slot j) ∧
     (doPluginsSwitch egTable 0 2).curPluginCount = egTable.curPluginCount ∧
     doPluginsSwitch (doPluginsSwitch egTable 0 2) 0 2 = egTable) :=
  ⟨by decide, by decide,
   doPluginsSwitch_spec egTable 0 2 100 102 (by decide) (by decide) (by decide)
     (by decide) (by decide) (by decide) (by decide) (by decide)⟩

/-! ### Deferred action slot (`EngineNextAction`, `ScopedActionLock`) -/

/-- The `EnginePostAction` opcodes of the single-slot deferred-action
mailbox. -/
inductive EnginePostAction where
  | kEnginePostActionNull
  | kEnginePostActionZeroCount
  | kEnginePostActionRemovePlugin
  | kEnginePostActionSwitchPlugins
deriving DecidableEq

/-- `EngineNextAction`: the single-slot mailbox (its mutex and semaphore are
synchronisation devices with no further state relevant to the sequential
semantics modelled here). -/
structure EngineNextAction where
  opcode : EnginePostAction
  pluginId : Nat
  value : Nat
  needsPost : Bool
  postDone : Bool
deriving DecidableEq

/-- The engine state touched by the deferred-action machinery: the plugin
table and the action slot. -/
structure EngineState where
  table : PluginTable
  nextAction : EngineNextAction

/-- The opcode dispatch of `doNextPluginAction`: `ZeroCount` resets the
occupied count, `RemovePlugin`/`SwitchPlugins` run the corresponding table
helper, `Null` does nothing. -/
def applyPostAction (opcode : EnginePostAction) (pluginId value : Nat)
    (t : PluginTable) : PluginTable :=
  match opcode with
  | .kEnginePostActionNull => t
  | .kEnginePostActionZeroCount => { t with curPluginCount := 0 }
  | .kEnginePostActionRemovePlugin => doPluginRemove t pluginId
  | .kEnginePostActionSwitchPlugins => doPluginsSwitch t pluginId value

/-- `CarlaEngine::ProtectedData::doNextPluginAction`: snapshot the slot, clear
it (opcode to `Null`, ids zeroed, `needsPost` false — `postDone` is left as
is), then apply the snapshotted opcode, and set `postDone` when `needsPost`
was recorded.  The audio-side try-lock is modelled as acquired: this is the
sequential semantics of the function body. -/
def doNextPluginAction (st : EngineState) : EngineState :=
  let opcode := st.nextAction.opcode
  let needsPost := st.nextAction.needsPost
  let pluginId := st.nextAction.pluginId
  let value := st.nextAction.value
  let cleared : EngineNextAction :=
    { opcode := .kEnginePostActionNull, pluginId := 0, value := 0,
      needsPost := false, postDone := st.nextAction.postDone }
  { table := applyPostAction opcode pluginId value st.table,
    nextAction := if needsPost then { cleared with postDone := true } else cleared }

/-- `ScopedActionLock::ScopedActionLock` as executed sequentially (no
concurrent audio thread runs during the bounded wait, so the semaphore is
never posted): a `Null` action is rejected by the first assert; a non-empty
slot is rejected with no state change; otherwise the action is stored with
`needsPost = isRunning` and `postDone = false`, and then either the bounded
wait expires and the caller self-corrects (clears `needsPost` and applies the
action itself) or, with the engine not running, applies it immediately. -/
def scopedActionLock (st : EngineState) (isRunning : Bool)
    (action : EnginePostAction) (pluginId value : Nat) : EngineState :=
  if action = .kEnginePostActionNull then st
  else if st.nextAction.opcode ≠ .kEnginePostActionNull then st
  else
    let st1 : EngineState :=
      { st with nextAction :=
        { opcode := action, pluginId := pluginId, value := value,
          needsPost := isRunning, postDone := false } }
    if isRunning then
      doNextPluginAction
        { st1 with nextAction := { st1.nextAction with needsPost := false } }
    else
      doNextPluginAction st1

/-- C3: submitting a request while another action is still pending (slot
opcode not `Null`) is rejected without queueing: the whole engine state —
table and every field of the pending slot — is returned unchanged. -/
theorem scopedActionLock_pending_rejected (st : EngineState) (isRunning : Bool)
    (action : EnginePostAction) (pluginId value : Nat)
    (hpending : st.nextAction.opcode ≠ EnginePostAction.kEnginePostActionNull) :
    scopedActionLock st isRunning action pluginId value = st := by
  unfold scopedActionLock
  by_cases ha : action = EnginePostAction.kEnginePostActionNull
  · rw [if_pos ha]
  · rw [if_neg ha, if_pos hpending]

/-- C3 witness: a second remove request arriving while a switch request is
pending leaves the state (pending slot included) untouched. -/
theorem scopedActionLock_pending_rejected_witness :
    (⟨egTable, ⟨.kEnginePostActionSwitchPlugins, 0, 2, true, false⟩⟩ :
        EngineState).nextAction.opcode ≠ EnginePostAction.kEnginePostActionNull ∧
    scopedActionLock ⟨egTable, ⟨.kEnginePostActionSwitchPlugins, 0, 2, true, false⟩⟩
        true .kEnginePostActionRemovePlugin 1 0 =
      ⟨egTable, ⟨.kEnginePostActionSwitchPlugins, 0, 2, true, false⟩⟩ :=
  ⟨by decide,
   scopedActionLock_pending_rejected
     ⟨egTable, ⟨.kEnginePostActionSwitchPlugins, 0, 2, true, false⟩⟩
     true .kEnginePostActionRemovePlugin 1 0 (by decide)⟩

/-- C7: with an empty slot and the engine not running (`needsPost` recorded
false), a non-`Null` request is applied synchronously before the constructor
returns: the resulting table is the action's effect on the old table, and the
slot is fully cleared (opcode `Null`, ids zeroed, no post pending). -/
theorem scopedActionLock_sync_applies (st : EngineState)
    (action : EnginePostAction) (pluginId value : Nat)
    (hempty : st.nextAction.opcode = EnginePostAction.kEnginePostActionNull)
    (haction : action ≠ EnginePostAction.kEnginePostActionNull) :
    scopedActionLock st false action pluginId value =
      { table := applyPostAction action pluginId value st.table,
        nextAction := ⟨.kEnginePostActionNull, 0, 0, false, false⟩ } := by
  unfold scopedActionLock
  rw [if_neg haction, if_neg (by simp [hempty])]
  simp only [Bool.false_eq_true, if_false]
  unfold doNextPluginAction
  rfl

/-- C7 witness: a synchronous remove request on a stopped engine removes
plugin 0 immediately and leaves the slot cleared. -/
theorem scopedActionLock_sync_applies_witness :
    (⟨egTable, ⟨.kEnginePostActionNull, 0, 0, false, false⟩⟩ :
        EngineState).nextAction.opcode = EnginePostAction.kEnginePostActionNull ∧
    EnginePostAction.kEnginePostActionRemovePlugin ≠
      EnginePostAction.kEnginePostActionNull ∧
    scopedActionLock ⟨egTable, ⟨.kEnginePostActionNull, 0, 0, false, false⟩⟩
        false .kEnginePostActionRemovePlugin 0 0 =
      { table := applyPostAction .kEnginePostActionRemovePlugin 0 0 egTable,
        nextAction := ⟨.kEnginePostActionNull, 0, 0, false, false⟩ } :=
  ⟨by decide, by decide,
   scopedActionLock_sync_applies
     ⟨egTable, ⟨.kEnginePostActionNull, 0, 0, false, false⟩⟩
     .kEnginePostActionRemovePlugin 0 0 (by decide) (by decide)⟩

/-! ### Transport clock (`EngineInternalTime::fillEngineTimeInfo`)

Embedded for a build without the Hylia/Link peer (`HAVE_HYLIA` undefined),
so `hylia.enabled` is always false and the reset branch always takes the
frame-derived path.  C doubles are `ℚ`. -/

/-- `kTicksPerBeat`: the fixed clock resolution (1920 ticks per beat). -/
def kTicksPerBeat : ℚ := 1920

/-- Truncation toward zero, as C's double-to-int conversion and the quotient
used by `std::fmod`. -/
def qtrunc (q : ℚ) : ℤ := if q < 0 then ⌈q⌉ else ⌊q⌋

/-- C `fmod a b = a - trunc(a/b) * b`. -/
def fmod (a b : ℚ) : ℚ := a - (qtrunc (a / b) : ℚ) * b

/-- `EngineTimeInfo::BBT` (bar/beat are `int32_t`, the rest doubles or
floats). -/
structure EngineTimeInfoBBT where
  valid : Bool
  bar : ℤ
  beat : ℤ
  tick : ℚ
  barStartTick : ℚ
  beatsPerBar : ℚ
  beatType : ℚ
  ticksPerBeat : ℚ
  beatsPerMinute : ℚ

/-- `EngineTimeInfo`. -/
structure EngineTimeInfo where
  playing : Bool
  frame : Nat
  usecs : Nat
  bbt : EngineTimeInfoBBT

/-- `EngineTransportMode`. -/
inductive EngineTransportMode where
  | disabled
  | internal
  | jack
  | plugin
  | bridge
deriving DecidableEq

/-- `EngineInternalTime` (the `timeInfo` reference member is embedded by
value). -/
structure EngineInternalTime where
  beatsPerBar : ℚ
  beatsPerMinute : ℚ
  bufferSize : ℚ
  sampleRate : ℚ
  tick : ℚ
  needsReset : Bool
  nextFrame : Nat
  timeInfo : EngineTimeInfo
  transportMode : EngineTransportMode

/-- The carry-propagation `while` loop of the playing branch: while the
accumulated tick is at least one beat's worth, subtract `kTicksPerBeat`,
increment the beat, and on beat overflow past `beatsPerBar` start a new bar.
Returns (bar, beat, barStartTick, tick). -/
def carryLoop (bpb : ℚ) (bar beat : ℤ) (bst t : ℚ) : ℤ × ℤ × ℚ × ℚ :=
  if h : kTicksPerBeat ≤ t then
    if bpb < ((beat + 1 : ℤ) : ℚ) then
      carryLoop bpb (bar + 1) 1 (bst + bpb * kTicksPerBeat) (t - kTicksPerBeat)
    else
      carryLoop bpb bar (beat + 1) bst (t - kTicksPerBeat)
  else (bar, beat, bst, t)
termination_by (⌊t / kTicksPerBeat⌋).toNat
decreasing_by
  all_goals
    have h1 : (t - kTicksPerBeat) / kTicksPerBeat = t / kTicksPerBeat - 1 := by
      rw [sub_div, div_self (by norm_num [kTicksPerBeat])]
    have h2 : (1 : ℤ) ≤ ⌊t / kTicksPerBeat⌋ := by
      rw [Int.le_floor]
      rw [le_div_iff₀ (by norm_num [kTicksPerBeat])]
      simpa [kTicksPerBeat] using h
    rw [h1]
    rw [show t / kTicksPerBeat - 1 = t / kTicksPerBeat - (1 : ℤ) by push_cast; ring]
    rw [Int.floor_sub_int]
    omega

/-- `EngineInternalTime::fillEngineTimeInfo` without the Hylia peer: guarded
by `sampleRate != 0` and `newFrames > 0`; in internal mode publish
`usecs = 0` and `frame = nextFrame`; then either recompute bar/beat/tick from
the absolute frame position (reset), advance the tick through the carry loop
(playing), or hold the tick (paused); publish `beatsPerBar`,
`beatsPerMinute` and the tick, store the tick, and advance `nextFrame` when
internal and playing. -/
def fillEngineTimeInfo (s0 : EngineInternalTime) (newFrames : Nat) :
    EngineInternalTime :=
  if s0.sampleRate = 0 ∨ newFrames = 0 then s0 else
  let s :=
    if s0.transportMode = EngineTransportMode.internal then
      { s0 with timeInfo := { s0.timeInfo with usecs := 0, frame := s0.nextFrame } }
    else s0
  let step : EngineInternalTime × ℚ :=
    if s.needsReset then
      let absBeat : ℚ := (s.timeInfo.frame : ℚ) / (s.sampleRate * 60) * s.beatsPerMinute
      let absTick : ℚ := absBeat * kTicksPerBeat
      let bar : ℤ := ⌊absBeat / s.beatsPerBar⌋
      let beat : ℤ := ⌊fmod absBeat s.beatsPerBar⌋
      let barStartTick : ℚ := ((bar : ℚ) * s.beatsPerBar + (beat : ℚ)) * kTicksPerBeat
      ({ s with
          needsReset := false,
          timeInfo := { s.timeInfo with bbt :=
            { s.timeInfo.bbt with
              valid := true, beatType := 4, ticksPerBeat := kTicksPerBeat,
              bar := bar + 1, beat := beat + 1, barStartTick := barStartTick } } },
       absTick - barStartTick)
    else if s.timeInfo.playing then
      let r := carryLoop s.beatsPerBar s.timeInfo.bbt.bar s.timeInfo.bbt.beat
          s.timeInfo.bbt.barStartTick
          (s.tick + (newFrames : ℚ) * kTicksPerBeat * s.beatsPerMinute / (s.sampleRate * 60))
      ({ s with timeInfo := { s.timeInfo with bbt :=
          { s.timeInfo.bbt with bar := r.1, beat := r.2.1, barStartTick := r.2.2.1 } } },
       r.2.2.2)
    else (s, s.tick)
  let s2 : EngineInternalTime :=
    { step.1 with
      tick := step.2,
      timeInfo := { step.1.timeInfo with bbt :=
        { step.1.timeInfo.bbt with
          beatsPerBar := step.1.beatsPerBar,
          beatsPerMinute := step.1.beatsPerMinute,
          tick := step.2 } } }
  if s2.transportMode = EngineTransportMode.internal ∧ s2.timeInfo.playing = true then
    { s2 with nextFrame := s2.nextFrame + newFrames }
  else s2

/-- Loop exit: an accumulated tick below one beat is returned as is. -/
theorem carryLoop_done (bpb : ℚ) (bar beat : ℤ) (bst t : ℚ)
    (h : ¬ kTicksPerBeat ≤ t) :
    carryLoop bpb bar beat bst t = (bar, beat, bst, t) := by
  rw [carryLoop, dif_neg h]

/-- Loop step with beat overflow: subtract a beat's ticks and start a new
bar. -/
theorem carryLoop_overflow (bpb : ℚ) (bar beat : ℤ) (bst t : ℚ)
    (h : kTicksPerBeat ≤ t) (hb : bpb < ((beat + 1 : ℤ) : ℚ)) :
    carryLoop bpb bar beat bst t =
      carryLoop bpb (bar + 1) 1 (bst + bpb * kTicksPerBeat) (t - kTicksPerBeat) := by
  rw [carryLoop, dif_pos h, if_pos hb]

/-- Loop step without beat overflow: subtract a beat's ticks and advance the
beat. -/
theorem carryLoop_step (bpb : ℚ) (bar beat : ℤ) (bst t : ℚ)
    (h : kTicksPerBeat ≤ t) (hb : ¬ bpb < ((beat + 1 : ℤ) : ℚ)) :
    carryLoop bpb bar beat bst t =
      carryLoop bpb bar (beat + 1) bst (t - kTicksPerBeat) := by
  rw [carryLoop, dif_pos h, if_neg hb]

/-- The carry loop, started on a non-negative tick, exits with a tick in
`[0, kTicksPerBeat)` and keeps bar and beat at least 1. -/
theorem carryLoop_bounds (bpb : ℚ) (bar beat : ℤ) (bst t : ℚ) :
    0 ≤ t →
    (0 ≤ (carryLoop bpb bar beat bst t).2.2.2 ∧
     (carryLoop bpb bar beat bst t).2.2.2 < kTicksPerBeat) ∧
    (1 ≤ beat → 1 ≤ (carryLoop bpb bar beat bst t).2.1) ∧
    (1 ≤ bar → 1 ≤ (carryLoop bpb bar beat bst t).1) := by
  induction bar, beat, bst, t using carryLoop.induct bpb with
  | case1 bar beat bst t h hb ih =>
      intro _
      rw [carryLoop_overflow bpb bar beat bst t h hb]
      have ht' : 0 ≤ t - kTicksPerBeat := by
        have : (0 : ℚ) < kTicksPerBeat := by norm_num [kTicksPerBeat]
        linarith
      obtain ⟨ihtick, ihbeat, ihbar⟩ := ih ht'
      exact ⟨ihtick, fun _ => ihbeat le_rfl, fun hb1 => ihbar (by omega)⟩
  | case2 bar beat bst t h hb ih =>
      intro _
      rw [carryLoop_step bpb bar beat bst t h hb]
      have ht' : 0 ≤ t - kTicksPerBeat := by
        have : (0 : ℚ) < kTicksPerBeat := by norm_num [kTicksPerBeat]
        linarith
      obtain ⟨ihtick, ihbeat, ihbar⟩ := ih ht'
      exact ⟨ihtick, fun hb1 => ihbeat (by omega), ihbar⟩
  | case3 bar beat bst t h =>
      intro ht
      rw [carryLoop_done bpb bar beat bst t h]
      exact ⟨⟨ht, by simpa using not_le.mp h⟩, fun hb1 => hb1, fun hb1 => hb1⟩

/-- The carry loop commutes with splitting a non-negative tick advance: first
normalising `t` and then adding `d` gives the same result as normalising
`t + d` at once. -/
theorem carryLoop_add (d : ℚ) (hd : 0 ≤ d) :
    ∀ (bpb : ℚ) (bar beat : ℤ) (bst t : ℚ),
    carryLoop bpb bar beat bst (t + d) =
      carryLoop bpb (carryLoop bpb bar beat bst t).1
        (carryLoop bpb bar beat bst t).2.1
        (carryLoop bpb bar beat bst t).2.2.1
        ((carryLoop bpb bar beat bst t).2.2.2 + d) := by
  intro bpb bar beat bst t
  induction bar, beat, bst, t using carryLoop.induct bpb with
  | case1 bar beat bst t h hb ih =>
      rw [carryLoop_overflow bpb bar beat bst t h hb,
          carryLoop_overflow bpb bar beat bst (t + d) (by linarith) hb,
          show t + d - kTicksPerBeat = (t - kTicksPerBeat) + d by ring]
      exact ih
  | case2 bar beat bst t h hb ih =>
      rw [carryLoop_step bpb bar beat bst t h hb,
          carryLoop_step bpb bar beat bst (t + d) (by linarith) hb,
          show t + d - kTicksPerBeat = (t - kTicksPerBeat) + d by ring]
      exact ih
  | case3 bar beat bst t h =>
      rw [carryLoop_done bpb bar beat bst t h]

/-- The (bar, beat, barStartTick, stored tick) quadruple of a transport
state, in the order returned by `carryLoop`. -/
def bbtState (s : EngineInternalTime) : ℤ × ℤ × ℚ × ℚ :=
  (s.timeInfo.bbt.bar, s.timeInfo.bbt.beat, s.timeInfo.bbt.barStartTick, s.tick)

/-- The guard `newFrames > 0` makes a zero-frame fill a no-op. -/
theorem fill_zero (s : EngineInternalTime) : fillEngineTimeInfo s 0 = s := by
  unfold fillEngineTimeInfo
  rw [if_pos (Or.inr rfl)]

/-- The playing, no-reset path of `fillEngineTimeInfo`: the advanced tick is
carried through `carryLoop`, the published bbt mirrors it, and the mode,
rates, reset flag and playing flag are unchanged. -/
theorem fill_playing (s : EngineInternalTime) (f : Nat)
    (hsr : s.sampleRate ≠ 0) (hf : f ≠ 0)
    (hreset : s.needsReset = false) (hplay : s.timeInfo.playing = true) :
    (fillEngineTimeInfo s f).tick =
      (carryLoop s.beatsPerBar s.timeInfo.bbt.bar s.timeInfo.bbt.beat
        s.timeInfo.bbt.barStartTick
        (s.tick + (f : ℚ) * kTicksPerBeat * s.beatsPerMinute /
          (s.sampleRate * 60))).2.2.2 ∧
    (fillEngineTimeInfo s f).timeInfo.bbt.tick = (fillEngineTimeInfo s f).tick ∧
    (fillEngineTimeInfo s f).timeInfo.bbt.bar =
      (carryLoop s.beatsPerBar s.timeInfo.bbt.bar s.timeInfo.bbt.beat
        s.timeInfo.bbt.barStartTick
        (s.tick + (f : ℚ) * kTicksPerBeat * s.beatsPerMinute /
          (s.sampleRate * 60))).1 ∧
    (fillEngineTimeInfo s f).timeInfo.bbt.beat =
      (carryLoop s.beatsPerBar s.timeInfo.bbt.bar s.timeInfo.bbt.beat
        s.timeInfo.bbt.barStartTick
        (s.tick + (f : ℚ) * kTicksPerBeat * s.beatsPerMinute /
          (s.sampleRate * 60))).2.1 ∧
    (fillEngineTimeInfo s f).timeInfo.bbt.barStartTick =
      (carryLoop s.beatsPerBar s.timeInfo.bbt.bar s.timeInfo.bbt.beat
        s.timeInfo.bbt.barStartTick
        (s.tick + (f : ℚ) * kTicksPerBeat * s.beatsPerMinute /
          (s.sampleRate * 60))).2.2.1 ∧
    (fillEngineTimeInfo s f).needsReset = false ∧
    (fillEngineTimeInfo s f).timeInfo.playing = true ∧
    (fillEngineTimeInfo s f).sampleRate = s.sampleRate ∧
    (fillEngineTimeInfo s f).beatsPerMinute = s.beatsPerMinute ∧
    (fillEngineTimeInfo s f).beatsPerBar = s.beatsPerBar ∧
    (fillEngineTimeInfo s f).transportMode = s.transportMode := by
  unfold fillEngineTimeInfo
  rw [if_neg (by push_neg; exact ⟨hsr, hf⟩)]
  by_cases hm : s.transportMode = EngineTransportMode.internal <;>
    simp [hm, hreset, hplay]

/-- The paused path (no reset, not playing): the tick and the bbt position
hold their values; mode, rates and flags are unchanged. -/
theorem fill_paused (s : EngineInternalTime) (f : Nat)
    (hsr : s.sampleRate ≠ 0) (hf : f ≠ 0)
    (hreset : s.needsReset = false) (hplay : s.timeInfo.playing = false) :
    (fillEngineTimeInfo s f).tick = s.tick ∧
    (fillEngineTimeInfo s f).timeInfo.bbt.tick = s.tick ∧
    (fillEngineTimeInfo s f).timeInfo.bbt.bar = s.timeInfo.bbt.bar ∧
    (fillEngineTimeInfo s f).timeInfo.bbt.beat = s.timeInfo.bbt.beat := by
  unfold fillEngineTimeInfo
  rw [if_neg (by push_neg; exact ⟨hsr, hf⟩)]
  by_cases hm : s.transportMode = EngineTransportMode.internal <;>
    simp [hm, hreset, hplay]

/-- The frame from which the reset branch recomputes the absolute position:
in internal mode `frame` has just been set to `nextFrame`. -/
def resetFrame (s : EngineInternalTime) : Nat :=
  if s.transportMode = EngineTransportMode.internal then s.nextFrame
  else s.timeInfo.frame

/-- The absolute beat the reset branch derives from the frame position:
`(frame / (sampleRate * 60)) * beatsPerMinute`. -/
def resetAbsBeat (s : EngineInternalTime) : ℚ :=
  (resetFrame s : ℚ) / (s.sampleRate * 60) * s.beatsPerMinute

/-- The reset path (no Hylia peer): bar and beat are recomputed from the
absolute beat, the tick is the remainder past the recomputed bar start, and
`needsReset` is cleared. -/
theorem fill_reset (s : EngineInternalTime) (f : Nat)
    (hsr : s.sampleRate ≠ 0) (hf : f ≠ 0) (hreset : s.needsReset = true) :
    (fillEngineTimeInfo s f).tick =
      resetAbsBeat s * kTicksPerBeat -
        ((⌊resetAbsBeat s / s.beatsPerBar⌋ : ℚ) * s.beatsPerBar +
          (⌊fmod (resetAbsBeat s) s.beatsPerBar⌋ : ℚ)) * kTicksPerBeat ∧
    (fillEngineTimeInfo s f).timeInfo.bbt.tick = (fillEngineTimeInfo s f).tick ∧
    (fillEngineTimeInfo s f).timeInfo.bbt.bar =
      ⌊resetAbsBeat s / s.beatsPerBar⌋ + 1 ∧
    (fillEngineTimeInfo s f).timeInfo.bbt.beat =
      ⌊fmod (resetAbsBeat s) s.beatsPerBar⌋ + 1 ∧
    (fillEngineTimeInfo s f).needsReset = false := by
  unfold fillEngineTimeInfo resetAbsBeat resetFrame
  rw [if_neg (by push_neg; exact ⟨hsr, hf⟩)]
  by_cases hm : s.transportMode = EngineTransportMode.internal <;>
    by_cases hp : s.timeInfo.playing = true <;>
      simp [hm, hp, hreset]

/-- Position recomputation arithmetic: for a non-negative absolute beat `x`
and beats-per-bar at least 1, the remainder tick past the recomputed bar
start lies in `[0, kTicksPerBeat)` and the 0-based bar and beat are
non-negative. -/
theorem reset_tick_bounds (x bpb : ℚ) (hx : 0 ≤ x) (hbpb : 1 ≤ bpb) :
    (0 ≤ x * kTicksPerBeat -
        ((⌊x / bpb⌋ : ℚ) * bpb + (⌊fmod x bpb⌋ : ℚ)) * kTicksPerBeat ∧
     x * kTicksPerBeat -
        ((⌊x / bpb⌋ : ℚ) * bpb + (⌊fmod x bpb⌋ : ℚ)) * kTicksPerBeat <
       kTicksPerBeat) ∧
    0 ≤ ⌊x / bpb⌋ ∧ 0 ≤ ⌊fmod x bpb⌋ := by
  have hbpb0 : (0 : ℚ) < bpb := by linarith
  have hq : 0 ≤ x / bpb := div_nonneg hx hbpb0.le
  have hfm : fmod x bpb = x - (⌊x / bpb⌋ : ℚ) * bpb := by
    unfold fmod qtrunc
    rw [if_neg (not_lt.mpr hq)]
  have hfl : (⌊x / bpb⌋ : ℚ) ≤ x / bpb := Int.floor_le _
  have hfl2 : x / bpb < ⌊x / bpb⌋ + 1 := Int.lt_floor_add_one _
  have hr0 : 0 ≤ x - (⌊x / bpb⌋ : ℚ) * bpb := by
    have h1 : (⌊x / bpb⌋ : ℚ) * bpb ≤ x / bpb * bpb :=
      mul_le_mul_of_nonneg_right hfl hbpb0.le
    rw [div_mul_cancel₀ _ (ne_of_gt hbpb0)] at h1
    linarith
  have hr1 : x - (⌊x / bpb⌋ : ℚ) * bpb < bpb := by
    have h1 : x / bpb * bpb < ((⌊x / bpb⌋ : ℚ) + 1) * bpb :=
      mul_lt_mul_of_pos_right hfl2 hbpb0
    rw [div_mul_cancel₀ _ (ne_of_gt hbpb0)] at h1
    nlinarith
  rw [hfm]
  have hK : (0 : ℚ) < kTicksPerBeat := by norm_num [kTicksPerBeat]
  have h2 : (0 : ℚ) ≤ (x - (⌊x / bpb⌋ : ℚ) * bpb) -
      (⌊x - (⌊x / bpb⌋ : ℚ) * bpb⌋ : ℚ) := by
    have := Int.floor_le (x - (⌊x / bpb⌋ : ℚ) * bpb)
    linarith
  have h3 : (x - (⌊x / bpb⌋ : ℚ) * bpb) -
      (⌊x - (⌊x / bpb⌋ : ℚ) * bpb⌋ : ℚ) < 1 := by
    have := Int.lt_floor_add_one (x - (⌊x / bpb⌋ : ℚ) * bpb)
    linarith
  refine ⟨⟨?_, ?_⟩, Int.floor_nonneg.mpr hq, Int.floor_nonneg.mpr hr0⟩
  · nlinarith [mul_nonneg h2 hK.le]
  · nlinarith [mul_pos (by linarith : (0 : ℚ) < 1 -
      ((x - (⌊x / bpb⌋ : ℚ) * bpb) - (⌊x - (⌊x / bpb⌋ : ℚ) * bpb⌋ : ℚ))) hK]

/-- C8: with positive sample rate and tempo, beats-per-bar at least 1, the
stored tick in `[0, kTicksPerBeat)` and 1-based bar/beat, any call with
positive frames keeps the stored tick (and the published bbt tick, equal to
it) in `[0, kTicksPerBeat)` with `kTicksPerBeat` the fixed constant 1920,
and keeps bar and beat 1-based — on the reset, playing and paused paths
alike. -/
theorem fillEngineTimeInfo_tick_range (s : EngineInternalTime) (f : Nat)
    (hsr : 0 < s.sampleRate) (hbpm : 0 < s.beatsPerMinute)
    (hbpb : 1 ≤ s.beatsPerBar)
    (ht0 : 0 ≤ s.tick) (ht1 : s.tick < kTicksPerBeat)
    (hbar : 1 ≤ s.timeInfo.bbt.bar) (hbeat : 1 ≤ s.timeInfo.bbt.beat)
    (hf : 0 < f) :
    (0 ≤ (fillEngineTimeInfo s f).tick ∧
     (fillEngineTimeInfo s f).tick < kTicksPerBeat) ∧
    (fillEngineTimeInfo s f).timeInfo.bbt.tick = (fillEngineTimeInfo s f).tick ∧
    1 ≤ (fillEngineTimeInfo s f).timeInfo.bbt.bar ∧
    1 ≤ (fillEngineTimeInfo s f).timeInfo.bbt.beat ∧
    kTicksPerBeat = 1920 := by
  have hsr' : s.sampleRate ≠ 0 := ne_of_gt hsr
  have hf' : f ≠ 0 := by omega
  rcases hreset : s.needsReset with _ | _
  · -- no reset: playing or paused
    by_cases hp : s.timeInfo.playing = true
    · obtain ⟨e1, e2, e3, e4, _, _, _, _, _, _, _⟩ :=
        fill_playing s f hsr' hf' hreset hp
      have hK : (0 : ℚ) < kTicksPerBeat := by norm_num [kTicksPerBeat]
      have hd : 0 ≤ (f : ℚ) * kTicksPerBeat * s.beatsPerMinute /
          (s.sampleRate * 60) := by
        apply div_nonneg
        · exact mul_nonneg (mul_nonneg (Nat.cast_nonneg f) hK.le) hbpm.le
        · exact mul_nonneg hsr.le (by norm_num)
      obtain ⟨⟨c1, c2⟩, cbeat, cbar⟩ :=
        carryLoop_bounds s.beatsPerBar s.timeInfo.bbt.bar s.timeInfo.bbt.beat
          s.timeInfo.bbt.barStartTick
          (s.tick + (f : ℚ) * kTicksPerBeat * s.beatsPerMinute /
            (s.sampleRate * 60))
          (by linarith)
      refine ⟨⟨by rw [e1]; exact c1, by rw [e1]; exact c2⟩, e2, ?_, ?_, rfl⟩
      · rw [e3]; exact cbar hbar
      · rw [e4]; exact cbeat hbeat
    · have hp' : s.timeInfo.playing = false := by simpa using hp
      obtain ⟨e1, e2, e3, e4⟩ := fill_paused s f hsr' hf' hreset hp'
      refine ⟨⟨by rw [e1]; exact ht0, by rw [e1]; exact ht1⟩,
        by rw [e2, e1], by rw [e3]; exact hbar, by rw [e4]; exact hbeat, rfl⟩
  · -- reset path
    obtain ⟨e1, e2, e3, e4, _⟩ := fill_reset s f hsr' hf' hreset
    have hx : 0 ≤ resetAbsBeat s := by
      unfold resetAbsBeat
      apply mul_nonneg
      · apply div_nonneg (Nat.cast_nonneg _)
        nlinarith [hsr.le]
      · exact hbpm.le
    obtain ⟨⟨b1, b2⟩, hbar0, hbeat0⟩ :=
      reset_tick_bounds (resetAbsBeat s) s.beatsPerBar hx hbpb
    refine ⟨⟨by rw [e1]; exact b1, by rw [e1]; exact b2⟩, e2, ?_, ?_, rfl⟩
    · rw [e3]; omega
    · rw [e4]; omega

/-- The C2 scenario's initial transport state: buffer 512, sample rate 48000,
4 beats per bar, 120 bpm, internal transport, playing, reset pending, frame
0. -/
def c2State : EngineInternalTime where
  beatsPerBar := 4
  beatsPerMinute := 120
  bufferSize := 512
  sampleRate := 48000
  tick := 0
  needsReset := true
  nextFrame := 0
  timeInfo :=
    { playing := true, frame := 0, usecs := 0,
      bbt := { valid := false, bar := 0, beat := 0, tick := 0, barStartTick := 0,
               beatsPerBar := 4, beatType := 4, ticksPerBeat := 1920,
               beatsPerMinute := 120 } }
  transportMode := EngineTransportMode.internal

/-- The state after the first `fillEngineTimeInfo 512` of the C2 scenario:
bar 1, beat 1, tick 0, reset cleared, next frame 512. -/
def c2After1 : EngineInternalTime where
  beatsPerBar := 4
  beatsPerMinute := 120
  bufferSize := 512
  sampleRate := 48000
  tick := 0
  needsReset := false
  nextFrame := 512
  timeInfo :=
    { playing := true, frame := 0, usecs := 0,
      bbt := { valid := true, bar := 1, beat := 1, tick := 0, barStartTick := 0,
               beatsPerBar := 4, beatType := 4, ticksPerBeat := 1920,
               beatsPerMinute := 120 } }
  transportMode := EngineTransportMode.internal

/-- The state after the second `fillEngineTimeInfo 512`: the tick advanced by
`512 * 1920 * 120 / (48000 * 60) = 40.96 = 1024/25` ticks, no rollover. -/
def c2After2 : EngineInternalTime where
  beatsPerBar := 4
  beatsPerMinute := 120
  bufferSize := 512
  sampleRate := 48000
  tick := 1024 / 25
  needsReset := false
  nextFrame := 1024
  timeInfo :=
    { playing := true, frame := 512, usecs := 0,
      bbt := { valid := true, bar := 1, beat := 1, tick := 1024 / 25,
               barStartTick := 0, beatsPerBar := 4, beatType := 4,
               ticksPerBeat := 1920, beatsPerMinute := 120 } }
  transportMode := EngineTransportMode.internal

/-- Evaluation of the first scenario call: the reset branch lands exactly on
bar 1, beat 1, tick 0. -/
theorem fill_c2_first : fillEngineTimeInfo c2State 512 = c2After1 := by
  unfold fillEngineTimeInfo c2State c2After1
  norm_num [fmod, qtrunc, kTicksPerBeat]

/-- Evaluation of the second scenario call: the playing branch advances the
tick to `1024/25` with no carry. -/
theorem fill_c2_second : fillEngineTimeInfo c2After1 512 = c2After2 := by
  have hc : carryLoop 4 1 1 0
      (0 + (512 : ℚ) * kTicksPerBeat * 120 / (48000 * 60)) =
      (1, 1, 0, 1024 / 25) := by
    have harg : (0 + (512 : ℚ) * kTicksPerBeat * 120 / (48000 * 60)) =
        1024 / 25 := by
      norm_num [kTicksPerBeat]
    rw [harg]
    exact carryLoop_done 4 1 1 0 (1024 / 25) (by norm_num [kTicksPerBeat])
  unfold fillEngineTimeInfo c2After1 c2After2
  norm_num [kTicksPerBeat] at hc ⊢
  rw [hc]
  simp

/-- C8 witness: the concrete post-reset scenario state satisfies every
hypothesis, and a 512-frame call keeps the tick in range and bar/beat
1-based. -/
theorem fillEngineTimeInfo_tick_range_witness :
    (0 : ℚ) < c2After1.sampleRate ∧ (0 : ℚ) < c2After1.beatsPerMinute ∧
    (1 : ℚ) ≤ c2After1.beatsPerBar ∧ (0 : ℚ) ≤ c2After1.tick ∧
    c2After1.tick < kTicksPerBeat ∧ 1 ≤ c2After1.timeInfo.bbt.bar ∧
    1 ≤ c2After1.timeInfo.bbt.beat ∧ 0 < 512 ∧
    ((0 ≤ (fillEngineTimeInfo c2After1 512).tick ∧
      (fillEngineTimeInfo c2After1 512).tick < kTicksPerBeat) ∧
     (fillEngineTimeInfo c2After1 512).timeInfo.bbt.tick =
       (fillEngineTimeInfo c2After1 512).tick ∧
     1 ≤ (fillEngineTimeInfo c2After1 512).timeInfo.bbt.bar ∧
     1 ≤ (fillEngineTimeInfo c2After1 512).timeInfo.bbt.beat ∧
     kTicksPerBeat = 1920) :=
  ⟨by norm_num [c2After1], by norm_num [c2After1], by norm_num [c2After1],
   by norm_num [c2After1], by norm_num [c2After1, kTicksPerBeat],
   by norm_num [c2After1], by norm_num [c2After1], by norm_num,
   fillEngineTimeInfo_tick_range c2After1 512 (by norm_num [c2After1])
     (by norm_num [c2After1]) (by norm_num [c2After1]) (by norm_num [c2After1])
     (by norm_num [c2After1, kTicksPerBeat]) (by norm_num [c2After1])
     (by norm_num [c2After1]) (by norm_num)⟩

/-- C2 counterexample: in the stated scenario the tick increase over the
second 512-frame call is `1024/25 = 40.96` ticks, which is not the claimed
`20.48 = 512/25`. -/
theorem fill_c2_counterexample :
    (fillEngineTimeInfo (fillEngineTimeInfo c2State 512) 512).tick -
      (fillEngineTimeInfo c2State 512).tick = 1024 / 25 ∧
    (1024 / 25 : ℚ) ≠ 512 / 25 := by
  rw [fill_c2_first, fill_c2_second]
  norm_num [c2After1, c2After2]

/-- C2 amended: after one `fillEngineTimeInfo 512` from reset at frame 0,
bar 1, beat 1, tick 0; a second call while playing advances the tick by
exactly `512 * 1920 * 120 / (48000 * 60) = 40.96` ticks with bar and beat
unchanged. -/
theorem fill_c2_scenario :
    (fillEngineTimeInfo c2State 512).timeInfo.bbt.bar = 1 ∧
    (fillEngineTimeInfo c2State 512).timeInfo.bbt.beat = 1 ∧
    (fillEngineTimeInfo c2State 512).tick = 0 ∧
    (fillEngineTimeInfo (fillEngineTimeInfo c2State 512) 512).tick -
      (fillEngineTimeInfo c2State 512).tick =
      (512 : ℚ) * 1920 * 120 / (48000 * 60) ∧
    ((512 : ℚ) * 1920 * 120 / (48000 * 60)) = 1024 / 25 ∧
    (fillEngineTimeInfo (fillEngineTimeInfo c2State 512) 512).timeInfo.bbt.bar = 1 ∧
    (fillEngineTimeInfo (fillEngineTimeInfo c2State 512) 512).timeInfo.bbt.beat = 1 := by
  rw [fill_c2_first, fill_c2_second]
  norm_num [c2After1, c2After2]

/-- Merging two successive playing advances: the (bar, beat, barStartTick,
tick) quadruple after filling `f` then `g` frames equals the one after
filling `f + g` frames at once. -/
theorem fill_merge (s : EngineInternalTime) (f g : Nat)
    (hsr : 0 < s.sampleRate) (hbpm : 0 < s.beatsPerMinute)
    (hreset : s.needsReset = false) (hplay : s.timeInfo.playing = true)
    (hf : 0 < f) :
    bbtState (fillEngineTimeInfo (fillEngineTimeInfo s f) g) =
      bbtState (fillEngineTimeInfo s (f + g)) := by
  have hsr' : s.sampleRate ≠ 0 := ne_of_gt hsr
  rcases Nat.eq_zero_or_pos g with hg | hg
  · subst hg
    rw [fill_zero, Nat.add_zero]
  · obtain ⟨e1, e2, e3, e4, e5, e6, e7, e8, e9, e10, e11⟩ :=
      fill_playing s f hsr' (by omega) hreset hplay
    obtain ⟨f1, f2, f3, f4, f5, _, _, _, _, _, _⟩ :=
      fill_playing (fillEngineTimeInfo s f) g (by rw [e8]; exact hsr')
        (by omega) e6 e7
    obtain ⟨g1, g2, g3, g4, g5, _, _, _, _, _, _⟩ :=
      fill_playing s (f + g) hsr' (by omega) hreset hplay
    unfold bbtState
    rw [f3, f4, f5, f1, g3, g4, g5, g1]
    rw [e8, e9, e10, e3, e4, e5, e1]
    have hK : (0 : ℚ) < kTicksPerBeat := by norm_num [kTicksPerBeat]
    have hdg : 0 ≤ (g : ℚ) * kTicksPerBeat * s.beatsPerMinute /
        (s.sampleRate * 60) := by
      apply div_nonneg
      · exact mul_nonneg (mul_nonneg (Nat.cast_nonneg g) hK.le) hbpm.le
      · exact mul_nonneg hsr.le (by norm_num)
    have hsplit : s.tick + ((f + g : Nat) : ℚ) * kTicksPerBeat *
        s.beatsPerMinute / (s.sampleRate * 60) =
        (s.tick + (f : ℚ) * kTicksPerBeat * s.beatsPerMinute /
          (s.sampleRate * 60)) +
        (g : ℚ) * kTicksPerBeat * s.beatsPerMinute / (s.sampleRate * 60) := by
      push_cast
      ring
    conv_rhs => rw [hsplit, carryLoop_add _ hdg]

/-- C4: from a playing, non-reset state with fixed positive tempo and sample
rate, folding `fillEngineTimeInfo` over any list of positive frame counts
produces exactly the same final bar, beat and stored tick as one call over
the summed frame count (the carry loop commutes with summing the advances in
the exact rational model). -/
theorem fillEngineTimeInfo_split (s : EngineInternalTime) (fs : List Nat)
    (hsr : 0 < s.sampleRate) (hbpm : 0 < s.beatsPerMinute)
    (hreset : s.needsReset = false) (hplay : s.timeInfo.playing = true)
    (hfs : ∀ f ∈ fs, 0 < f) :
    (List.foldl fillEngineTimeInfo s fs).timeInfo.bbt.bar =
      (fillEngineTimeInfo s fs.sum).timeInfo.bbt.bar ∧
    (List.foldl fillEngineTimeInfo s fs).timeInfo.bbt.beat =
      (fillEngineTimeInfo s fs.sum).timeInfo.bbt.beat ∧
    (List.foldl fillEngineTimeInfo s fs).tick =
      (fillEngineTimeInfo s fs.sum).tick := by
  have key : ∀ (l : List Nat) (u : EngineInternalTime), 0 < u.sampleRate →
      0 < u.beatsPerMinute → u.needsReset = false →
      u.timeInfo.playing = true → (∀ f ∈ l, 0 < f) →
      bbtState (List.foldl fillEngineTimeInfo u l) =
        bbtState (fillEngineTimeInfo u l.sum) := by
    intro l
    induction l with
    | nil =>
        intro u _ _ _ _ _
        simp [List.foldl, List.sum_nil, fill_zero]
    | cons f rest ih =>
        intro u hsr1 hbpm1 hreset1 hplay1 hfs1
        have hf : 0 < f := hfs1 f (by simp)
        obtain ⟨_, _, _, _, _, e6, e7, e8, e9, _, _⟩ :=
          fill_playing u f (ne_of_gt hsr1) (by omega) hreset1 hplay1
        rw [List.foldl_cons, List.sum_cons]
        rw [ih (fillEngineTimeInfo u f) (by rw [e8]; exact hsr1)
            (by rw [e9]; exact hbpm1) e6 e7
            (fun x hx => hfs1 x (by simp [hx]))]
        exact fill_merge u f rest.sum hsr1 hbpm1 hreset1 hplay1 hf
  have h := key fs s hsr hbpm hreset hplay hfs
  unfold bbtState at h
  simp only [Prod.mk.injEq] at h
  exact ⟨h.1, h.2.1, h.2.2.2⟩

/-- C4 witness: splitting 1024 frames as two 512-frame calls from the
concrete scenario state agrees with the single 1024-frame call. -/
theorem fillEngineTimeInfo_split_witness :
    (0 : ℚ) < c2After1.sampleRate ∧ (0 : ℚ) < c2After1.beatsPerMinute ∧
    c2After1.needsReset = false ∧ c2After1.timeInfo.playing = true ∧
    (∀ f ∈ [512, 512], 0 < f) ∧
    ((List.foldl fillEngineTimeInfo c2After1 [512, 512]).timeInfo.bbt.bar =
      (fillEngineTimeInfo c2After1 ([512, 512].sum)).timeInfo.bbt.bar ∧
     (List.foldl fillEngineTimeInfo c2After1 [512, 512]).timeInfo.bbt.beat =
      (fillEngineTimeInfo c2After1 ([512, 512].sum)).timeInfo.bbt.beat ∧
     (List.foldl fillEngineTimeInfo c2After1 [512, 512]).tick =
      (fillEngineTimeInfo c2After1 ([512, 512].sum)).tick) :=
  ⟨by norm_num [c2After1], by norm_num [c2After1], by norm_num [c2After1],
   by norm_num [c2After1], by decide,
   fillEngineTimeInfo_split c2After1 [512, 512] (by norm_num [c2After1])
     (by norm_num [c2After1]) (by norm_num [c2After1]) (by norm_num [c2After1])
     (by decide)⟩

/-! ### DSP-load estimate (`PendingRtEventsRunner::~PendingRtEventsRunner`) -/

/-- The DSP-load update performed on buffer-cycle scope destruction, after
`doNextPluginAction`: skipped unless load accounting was armed
(`prevTime > 0`, from the monotonic clock at construction) and the clock did
not step backwards; otherwise the new sample is the elapsed seconds over the
buffer time budget `maxTime = bufferSize / sampleRate`, as a percentage; a
sample above the estimate snaps it up clamped at 100, otherwise the estimate
is multiplied by the decay factor `(1 - maxTime) + 1e-12`. -/
def updateDspLoad (bufferSize sampleRate : ℚ) (prevTime newTime : ℤ)
    (dspLoad : ℚ) : ℚ :=
  if prevTime ≤ 0 then dspLoad
  else if newTime < prevTime then dspLoad
  else
    let timeDiff : ℚ := ((newTime - prevTime : ℤ) : ℚ) / 1000000
    let maxTime : ℚ := bufferSize / sampleRate
    let newLoad : ℚ := timeDiff / maxTime * 100
    if dspLoad < newLoad then min 100 newLoad
    else dspLoad * ((1 - maxTime) + 1 / 1000000000000)

/-- C5 counterexample: with a buffer worth two seconds of audio
(`maxTime = bufferSize/sampleRate = 2`) the decay factor is negative, and a
legal estimate of 50 is driven below 0 — the estimate does not stay in
`[0, 100]` in all cases. -/
theorem updateDspLoad_counterexample :
    updateDspLoad 96000 48000 1 1 50 < 0 := by
  norm_num [updateDspLoad]

/-- C5 amended: whenever the buffer time budget `bufferSize/sampleRate` lies
in `[1e-12, 1]` seconds (true for every realistic configuration), the update
snaps up to the sample clamped at 100 when the sample exceeds the estimate,
otherwise multiplies the estimate by the decay factor, and the estimate
stays within `[0, 100]` and never falls below the decay law. -/
theorem updateDspLoad_spec (bufferSize sampleRate : ℚ) (prevTime newTime : ℤ)
    (dspLoad : ℚ)
    (hbs : 0 < bufferSize) (hsr : 0 < sampleRate)
    (hmin : 1 / 1000000000000 ≤ bufferSize / sampleRate)
    (hmax : bufferSize / sampleRate ≤ 1)
    (hprev : 0 < prevTime) (hclock : prevTime ≤ newTime)
    (hload0 : 0 ≤ dspLoad) (hload1 : dspLoad ≤ 100) :
    (dspLoad < ((newTime - prevTime : ℤ) : ℚ) / 1000000 /
        (bufferSize / sampleRate) * 100 →
      updateDspLoad bufferSize sampleRate prevTime newTime dspLoad =
        min 100 (((newTime - prevTime : ℤ) : ℚ) / 1000000 /
          (bufferSize / sampleRate) * 100)) ∧
    (((newTime - prevTime : ℤ) : ℚ) / 1000000 /
        (bufferSize / sampleRate) * 100 ≤ dspLoad →
      updateDspLoad bufferSize sampleRate prevTime newTime dspLoad =
        dspLoad * ((1 - bufferSize / sampleRate) + 1 / 1000000000000)) ∧
    0 ≤ updateDspLoad bufferSize sampleRate prevTime newTime dspLoad ∧
    updateDspLoad bufferSize sampleRate prevTime newTime dspLoad ≤ 100 ∧
    dspLoad * ((1 - bufferSize / sampleRate) + 1 / 1000000000000) ≤
      updateDspLoad bufferSize sampleRate prevTime newTime dspLoad := by
  have hunfold : updateDspLoad bufferSize sampleRate prevTime newTime dspLoad =
      if dspLoad < ((newTime - prevTime : ℤ) : ℚ) / 1000000 /
          (bufferSize / sampleRate) * 100
      then min 100 (((newTime - prevTime : ℤ) : ℚ) / 1000000 /
        (bufferSize / sampleRate) * 100)
      else dspLoad * ((1 - bufferSize / sampleRate) + 1 / 1000000000000) := by
    unfold updateDspLoad
    rw [if_neg (by omega), if_neg (by omega)]
  have hm0 : 0 < bufferSize / sampleRate := div_pos hbs hsr
  have hL0 : 0 ≤ ((newTime - prevTime : ℤ) : ℚ) / 1000000 /
      (bufferSize / sampleRate) * 100 := by
    apply mul_nonneg _ (by norm_num)
    apply div_nonneg _ hm0.le
    apply div_nonneg _ (by norm_num)
    exact_mod_cast (by omega : (0 : ℤ) ≤ newTime - prevTime)
  have hfac0 : 0 ≤ (1 - bufferSize / sampleRate) + 1 / 1000000000000 := by
    linarith
  have hfac1 : (1 - bufferSize / sampleRate) + 1 / 1000000000000 ≤ 1 := by
    linarith
  have hdecay : dspLoad * ((1 - bufferSize / sampleRate) + 1 / 1000000000000) ≤
      dspLoad := mul_le_of_le_one_right hload0 hfac1
  rw [hunfold]
  by_cases hcmp : dspLoad < ((newTime - prevTime : ℤ) : ℚ) / 1000000 /
      (bufferSize / sampleRate) * 100
  · rw [if_pos hcmp]
    refine ⟨fun _ => rfl, fun hc => absurd hcmp (not_lt.mpr hc), ?_, ?_, ?_⟩
    · exact le_min (by norm_num) hL0
    · exact min_le_left _ _
    · have h2 : dspLoad ≤ min 100 (((newTime - prevTime : ℤ) : ℚ) / 1000000 /
          (bufferSize / sampleRate) * 100) := le_min hload1 hcmp.le
      linarith
  · rw [if_neg hcmp]
    refine ⟨fun hc => absurd hc hcmp, fun _ => rfl, ?_, ?_, le_rfl⟩
    · exact mul_nonneg hload0 hfac0
    · linarith

/-- C5 witness: a realistic 512-frame, 48 kHz buffer with a modest elapsed
time takes the decay branch and keeps a legal estimate legal. -/
theorem updateDspLoad_spec_witness :
    (0 : ℚ) < 512 ∧ (0 : ℚ) < 48000 ∧
    (1 / 1000000000000 : ℚ) ≤ 512 / 48000 ∧ (512 / 48000 : ℚ) ≤ 1 ∧
    (0 : ℤ) < 1 ∧ (1 : ℤ) ≤ 11 ∧ (0 : ℚ) ≤ 50 ∧ (50 : ℚ) ≤ 100 ∧
    (((50 : ℚ) < ((11 - 1 : ℤ) : ℚ) / 1000000 / ((512 : ℚ) / 48000) * 100 →
      updateDspLoad 512 48000 1 11 50 =
        min 100 (((11 - 1 : ℤ) : ℚ) / 1000000 / ((512 : ℚ) / 48000) * 100)) ∧
     (((11 - 1 : ℤ) : ℚ) / 1000000 / ((512 : ℚ) / 48000) * 100 ≤ 50 →
      updateDspLoad 512 48000 1 11 50 =
        50 * ((1 - (512 : ℚ) / 48000) + 1 / 1000000000000)) ∧
     0 ≤ updateDspLoad 512 48000 1 11 50 ∧
     updateDspLoad 512 48000 1 11 50 ≤ 100 ∧
     (50 : ℚ) * ((1 - (512 : ℚ) / 48000) + 1 / 1000000000000) ≤
       updateDspLoad 512 48000 1 11 50) :=
  ⟨by norm_num, by norm_num, by norm_num, by norm_num, by norm_num,
   by norm_num, by norm_num, by norm_num,
   updateDspLoad_spec 512 48000 1 11 50 (by norm_num) (by norm_num)
     (by norm_num) (by norm_num) (by norm_num) (by norm_num) (by norm_num)
     (by norm_num)⟩

end Carla
